import Mathlib

/-!
Verification development for the TivaTap reaction-time game application
(`SP_user.py`).  The serial-protocol core is shallowly embedded:

* the byte framer of `serial_reader` (lines 981-1018) becomes a pure step
  function on byte buffers (bytes are `Nat` values);
* the message handlers (`handle_serial_line`,
  `handle_single_player_response`, `handle_multiplayer_response`,
  `process_multiplayer_round`) become pure functions on a `GameState`
  record holding the mutable session fields of `ReactionGameApp`;
* scheduled `master.after(...)` callbacks are modelled as an explicit list
  of `Pending` events returned by each handler;
* the leaderboard persistence (`load_leaderboard`,
  `update_leaderboard_entry`) is embedded over a small model of Python's
  JSON values and of the relevant Python dynamic operations (`in`,
  indexing, iteration), with exceptions as `Except`.
-/

/-! ## Byte framer (`serial_reader`, SP_user.py lines 981-1018) -/

/-- Python `bytes.find(b)`: index of the first occurrence of byte `b`,
`none` when absent (the source's `-1`). -/
def bfind (b : Nat) : List Nat → Option Nat
  | [] => none
  | c :: rest => if c = b then some 0 else (bfind b rest).map (fun n => n + 1)

/-- Position of the earliest `\n` (10) or `\r` (13) in the buffer, exactly
as the source computes it: `find(b"\n")` and `find(b"\r")` separately,
then the minimum of the positions that are not `-1`. -/
def sep_position (buf : List Nat) : Option Nat :=
  match bfind 10 buf, bfind 13 buf with
  | some n, some c => some (min n c)
  | some n, none => some n
  | none, some c => some c
  | none, none => none

/-- One framed message: either a delimiter-terminated line (recording the
consumed delimiter byte) or a 3-byte fixed-width chunk. -/
inductive Framed
  | line (msg : List Nat) (delim : Nat)
  | fixed3 (msg : List Nat)
deriving DecidableEq

/-- The bytes a framed message accounts for in the input stream: the
message itself plus the one consumed delimiter byte, if any. -/
def framedBytes : Framed → List Nat
  | .line m d => m ++ [d]
  | .fixed3 m => m

/-- One iteration of the framing `while True` loop: extract the prefix
before the earliest `\n`/`\r` (consuming that one delimiter byte), else
take exactly the first 3 bytes when the buffer holds at least 3, else
wait (`none`). -/
def serial_reader_step (buf : List Nat) : Option (Framed × List Nat) :=
  match sep_position buf with
  | some p => some (.line (buf.take p) (buf.getD p 0), buf.drop (p + 1))
  | none => if 3 ≤ buf.length then some (.fixed3 (buf.take 3), buf.drop 3) else none

theorem bfind_lt_length {b : Nat} :
    ∀ {l : List Nat} {p : Nat}, bfind b l = some p → p < l.length := by
  intro l
  induction l with
  | nil => intro p h; simp [bfind] at h
  | cons c rest ih =>
    intro p h
    simp only [bfind] at h
    by_cases hc : c = b
    · simp [hc] at h
      cases h
      simp
    · simp [hc] at h
      obtain ⟨q, hq, rfl⟩ := h
      have := ih hq
      simp
      omega

theorem bfind_getD {b : Nat} :
    ∀ {l : List Nat} {p : Nat}, bfind b l = some p → l.getD p 0 = b := by
  intro l
  induction l with
  | nil => intro p h; simp [bfind] at h
  | cons c rest ih =>
    intro p h
    simp only [bfind] at h
    by_cases hc : c = b
    · simp [hc] at h
      subst h
      simpa using hc
    · simp [hc] at h
      obtain ⟨q, hq, rfl⟩ := h
      simpa using ih hq

theorem sep_position_lt_length {buf : List Nat} {p : Nat}
    (h : sep_position buf = some p) : p < buf.length := by
  unfold sep_position at h
  cases h10 : bfind 10 buf with
  | none =>
    cases h13 : bfind 13 buf with
    | none => simp [h10, h13] at h
    | some c =>
      simp [h10, h13] at h
      subst h
      exact bfind_lt_length h13
  | some n =>
    cases h13 : bfind 13 buf with
    | none =>
      simp [h10, h13] at h
      subst h
      exact bfind_lt_length h10
    | some c =>
      simp [h10, h13] at h
      have hn := bfind_lt_length h10
      have hc := bfind_lt_length h13
      omega

/-- Splitting a list at a position strictly inside it. -/
theorem take_getD_drop :
    ∀ (l : List Nat) (p : Nat), p < l.length →
      l.take p ++ l.getD p 0 :: l.drop (p + 1) = l := by
  intro l
  induction l with
  | nil => intro p h; simp at h
  | cons c rest ih =>
    intro p h
    cases p with
    | zero => simp
    | succ q =>
      simp only [List.take_succ_cons, List.getD_cons_succ, List.drop_succ_cons,
        List.cons_append, List.cons.injEq, true_and]
      exact ih q (by simpa using h)

/-- Each extracted message, together with its consumed delimiter,
accounts exactly for the bytes removed from the buffer. -/
theorem serial_reader_step_recon {buf : List Nat} {fr : Framed × List Nat}
    (h : serial_reader_step buf = some fr) :
    framedBytes fr.fst ++ fr.snd = buf := by
  unfold serial_reader_step at h
  cases hp : sep_position buf with
  | some p =>
    rw [hp] at h
    simp only [Option.some.injEq] at h
    subst h
    simp only [framedBytes, List.append_assoc, List.singleton_append]
    exact take_getD_drop buf p (sep_position_lt_length hp)
  | none =>
    rw [hp] at h
    by_cases hlen : 3 ≤ buf.length
    · rw [if_pos hlen] at h
      simp only [Option.some.injEq] at h
      subst h
      simp [framedBytes]
    · rw [if_neg hlen] at h
      exact absurd h (by simp)

/-- Each successful framing step strictly shrinks the buffer. -/
theorem serial_reader_step_shrink {buf : List Nat} {fr : Framed × List Nat}
    (h : serial_reader_step buf = some fr) :
    fr.snd.length < buf.length := by
  unfold serial_reader_step at h
  cases hp : sep_position buf with
  | some p =>
    rw [hp] at h
    simp only [Option.some.injEq] at h
    subst h
    have hplt := sep_position_lt_length hp
    simp only [List.length_drop]
    omega
  | none =>
    rw [hp] at h
    by_cases hlen : 3 ≤ buf.length
    · rw [if_pos hlen] at h
      simp only [Option.some.injEq] at h
      subst h
      simp only [List.length_drop]
      omega
    · rw [if_neg hlen] at h
      exact absurd h (by simp)

/-- The inner `while True` loop of `serial_reader`: repeatedly extract
messages until neither a delimiter nor 3 buffered bytes are available. -/
def serial_reader_drain (buf : List Nat) : List Framed × List Nat :=
  match h : serial_reader_step buf with
  | none => ([], buf)
  | some fr =>
    have : fr.snd.length < buf.length := serial_reader_step_shrink h
    let rest := serial_reader_drain fr.snd
    (fr.fst :: rest.fst, rest.snd)
termination_by buf.length

/-- Concatenation of the byte footprints of a list of framed messages. -/
def framedConcat (fs : List Framed) : List Nat :=
  (fs.map framedBytes).flatten

theorem framedConcat_append (a b : List Framed) :
    framedConcat (a ++ b) = framedConcat a ++ framedConcat b := by
  simp [framedConcat]

theorem framedConcat_cons (f : Framed) (fs : List Framed) :
    framedConcat (f :: fs) = framedBytes f ++ framedConcat fs := by
  simp [framedConcat]

theorem serial_reader_drain_recon_aux (n : Nat) :
    ∀ buf : List Nat, buf.length ≤ n →
      framedConcat (serial_reader_drain buf).fst ++ (serial_reader_drain buf).snd = buf := by
  induction n with
  | zero =>
    intro buf hlen
    have hbuf : buf = [] := by
      cases buf with
      | nil => rfl
      | cons c r => simp at hlen
    subst hbuf
    rw [serial_reader_drain]
    simp [framedConcat, serial_reader_step, sep_position, bfind]
  | succ n ih =>
    intro buf hlen
    rw [serial_reader_drain]
    split
    · simp [framedConcat]
    · rename_i fr hstep
      have hsh := serial_reader_step_shrink hstep
      have hrec := ih fr.snd (by omega)
      dsimp only
      rw [framedConcat_cons, List.append_assoc, hrec]
      exact serial_reader_step_recon hstep

theorem serial_reader_drain_recon (buf : List Nat) :
    framedConcat (serial_reader_drain buf).fst ++ (serial_reader_drain buf).snd = buf :=
  serial_reader_drain_recon_aux buf.length buf le_rfl

/-- The reader loop over a sequence of arriving chunks: each arrival is
appended to the residual buffer and the buffer is drained. -/
def serial_reader_run (chunks : List (List Nat)) : List Framed × List Nat :=
  chunks.foldl
    (fun st chunk =>
      let r := serial_reader_drain (st.snd ++ chunk)
      (st.fst ++ r.fst, r.snd))
    ([], [])

theorem serial_reader_run_aux (chunks : List (List Nat)) :
    ∀ acc : List Framed, ∀ buf : List Nat,
      framedConcat
          (chunks.foldl
            (fun st chunk =>
              let r := serial_reader_drain (st.snd ++ chunk)
              (st.fst ++ r.fst, r.snd))
            (acc, buf)).fst
        ++ (chunks.foldl
            (fun st chunk =>
              let r := serial_reader_drain (st.snd ++ chunk)
              (st.fst ++ r.fst, r.snd))
            (acc, buf)).snd
        = framedConcat acc ++ buf ++ chunks.flatten := by
  induction chunks with
  | nil => intro acc buf; simp [framedConcat]
  | cons chunk rest ih =>
    intro acc buf
    simp only [List.foldl_cons]
    rw [ih]
    simp only [framedConcat_append, List.append_assoc, List.flatten_cons]
    rw [← List.append_assoc
        (framedConcat (serial_reader_drain (buf ++ chunk)).fst),
      serial_reader_drain_recon (buf ++ chunk)]
    simp [List.append_assoc]

/-! ## Decoding and Python string helpers -/

/-- Python `bytes.decode("ascii", errors="replace")`: bytes below 128 map
to the corresponding character, all others to U+FFFD. -/
def pyDecode (bs : List Nat) : List Char :=
  bs.map (fun b => if b < 128 then Char.ofNat b else Char.ofNat 0xFFFD)

/-- ASCII whitespace characters removed by Python `str.strip()`. -/
def pyIsSpace (c : Char) : Bool :=
  c = ' ' ∨ c = Char.ofNat 9 ∨ c = Char.ofNat 10 ∨ c = Char.ofNat 13 ∨
    c = Char.ofNat 11 ∨ c = Char.ofNat 12

/-- Python `str.strip()` on a character list: drop leading and trailing
whitespace. -/
def pyStripL (cs : List Char) : List Char :=
  ((cs.dropWhile pyIsSpace).reverse.dropWhile pyIsSpace).reverse

/-- Python `str.strip()` on a `String`. -/
def pyStrip (s : String) : String :=
  ⟨pyStripL s.data⟩

def digitVal (c : Char) : Option Nat :=
  if c.isDigit then some (c.toNat - 48) else none

/-- Value of a nonempty all-digits character list, else `none`. -/
def digitsVal (cs : List Char) : Option Nat :=
  match cs with
  | [] => none
  | _ :: _ =>
    cs.foldl
      (fun acc c =>
        match acc, digitVal c with
        | some a, some d => some (a * 10 + d)
        | _, _ => none)
      (some 0)

/-- Python `int(s)` on an already-stripped string: an optional sign
followed by a nonempty digit string; anything else raises `ValueError`
(modelled as `none`). -/
def pyIntL (cs : List Char) : Option Int :=
  match cs with
  | '+' :: rest => (digitsVal rest).map (fun n => (n : Int))
  | '-' :: rest => (digitsVal rest).map (fun n => -(n : Int))
  | _ => (digitsVal cs).map (fun n => (n : Int))

/-! ## Game state (`ReactionGameApp` mutable session fields) -/

/-- `self.game_mode`: `'single'` or `'multiplayer'`.  (`handle_serial_line`
dispatches on `== 'single'`, any other value taking the multiplayer
branch.) -/
inductive Mode
  | single
  | multiplayer
deriving DecidableEq

/-- The command currently bound to `start_round_button`: the code marks a
session finished or aborted by repurposing the button from
`on_start_round_clicked` to `on_back_to_start_clicked`
("RETURN TO MAIN MENU"). -/
inductive BtnCmd
  | startRound
  | backToMenu
deriving DecidableEq

/-- A leaderboard as held in `self.leaderboard`: round counts 1, 5 and 10
each map to a list of `(name, average_ms)` entries. -/
structure Leaderboard where
  lb1 : List (String × ℚ)
  lb5 : List (String × ℚ)
  lb10 : List (String × ℚ)
deriving DecidableEq

/-- `self.leaderboard[rounds]`.  Keys outside `{1, 5, 10}` would raise
`KeyError` in Python and are unreachable (round counts are validated at
session start); they are mapped to `[]` here. -/
def Leaderboard.entriesFor (lb : Leaderboard) : Nat → List (String × ℚ)
  | 1 => lb.lb1
  | 5 => lb.lb5
  | 10 => lb.lb10
  | _ => []

/-- The per-list core of `update_leaderboard_entry` (SP_user.py lines
134-150): find the first entry with the given name; if found, replace it
only when the new average is strictly lower; otherwise append a new
entry. -/
def upsert_entries : List (String × ℚ) → String → ℚ → List (String × ℚ)
  | [], name, avg => [(name, avg)]
  | (n, t) :: rest, name, avg =>
    if n = name then
      (if avg < t then (name, avg) :: rest else (n, t) :: rest)
    else
      (n, t) :: upsert_entries rest name avg

/-- `update_leaderboard_entry(self, rounds, name, avg_time)`: upsert into
the list stored under `rounds`. -/
def update_leaderboard_entry (lb : Leaderboard) (rounds : Nat) (name : String)
    (avg : ℚ) : Leaderboard :=
  match rounds with
  | 1 => { lb with lb1 := upsert_entries lb.lb1 name avg }
  | 5 => { lb with lb5 := upsert_entries lb.lb5 name avg }
  | 10 => { lb with lb10 := upsert_entries lb.lb10 name avg }
  | _ => lb

/-- The mutable session fields of `ReactionGameApp` that the protocol
handlers touch.  Pure rendering state (label texts, canvas colors) is not
modelled; the start-round button's bound command and enabled state are,
because they determine which transitions a click can take. -/
structure GameState where
  game_mode : Mode
  player_name : String
  player_a_name : String
  player_b_name : String
  selected_rounds : Nat
  current_round : Nat
  round_times : List Int
  player_a_times : List Int
  player_b_times : List Int
  waiting_for_result : Bool
  btn_cmd : BtnCmd
  btn_enabled : Bool
  leaderboard : Leaderboard
deriving DecidableEq

/-- A session is terminal exactly when the start-round button has been
repurposed to "RETURN TO MAIN MENU" (game over / session complete). -/
def sessionTerminal (s : GameState) : Bool :=
  match s.btn_cmd with
  | .backToMenu => true
  | .startRound => false

/-- Callbacks scheduled with `master.after(...)` by the handlers; the
handlers return them as explicit pending events. -/
inductive Pending
  | showFinalResults
  | showFinalMultiplayerResults
  | showMultiplayerErrorResults (winner : Char) (message : String)
  | resetMultiplayerDisplay
  | sendRoundCommand
deriving DecidableEq

/-- Arithmetic mean of a timing list (Python `sum(xs) / len(xs)`). -/
def mean (xs : List Int) : ℚ :=
  (xs.sum : ℚ) / (xs.length : ℚ)

/-! ## Message handlers (SP_user.py lines 1031-1206) -/

/-- `handle_single_player_response` (lines 1040-1100).  Note the source
checks `E0`/`E1` *before* the `waiting_for_result` guard; the guard
protects only the numeric path. -/
def handle_single_player_response (s : GameState) (line : List Char) :
    GameState × List Pending :=
  if line = ['E', '0'] ∨ line = ['E', '1'] then
    ({ s with waiting_for_result := false, btn_cmd := .backToMenu,
              btn_enabled := true }, [])
  else
    match pyIntL line with
    | none => (s, [])
    | some d =>
      if s.waiting_for_result = false then (s, [])
      else
        let s1 := { s with waiting_for_result := false, btn_enabled := true,
                           round_times := s.round_times ++ [d],
                           current_round := s.current_round + 1 }
        if s1.selected_rounds ≤ s1.current_round then
          ({ s1 with btn_enabled := false }, [Pending.showFinalResults])
        else
          (s1, [])

/-- `process_multiplayer_round` (lines 1168-1206). -/
def process_multiplayer_round (s : GameState) : GameState × List Pending :=
  if s.waiting_for_result = false then (s, [])
  else
    let s1 := { s with waiting_for_result := false, btn_enabled := true,
                       current_round := s.current_round + 1 }
    if s1.selected_rounds ≤ s1.current_round then
      ({ s1 with btn_enabled := false }, [Pending.showFinalMultiplayerResults])
    else
      (s1, [Pending.resetMultiplayerDisplay])

/-- `handle_multiplayer_response` (lines 1102-1166).  Empty lines are
dropped first, then everything is gated on `waiting_for_result`; then
player-tagged errors, then player-tagged numeric times. -/
def handle_multiplayer_response (s : GameState) (line : List Char) :
    GameState × List Pending :=
  match line with
  | [] => (s, [])
  | c :: rest =>
    if s.waiting_for_result = false then (s, [])
    else if c = 'A' ∧ (rest = ['E', '0'] ∨ rest = ['E', '1']) then
      let errType :=
        if rest = ['E', '0'] then "pressed the button too early"
        else "pressed the wrong color combination"
      ({ s with waiting_for_result := false },
       [Pending.showMultiplayerErrorResults 'B' (s.player_a_name ++ " " ++ errType)])
    else if c = 'B' ∧ (rest = ['E', '0'] ∨ rest = ['E', '1']) then
      let errType :=
        if rest = ['E', '0'] then "pressed the button too early"
        else "pressed the wrong color combination"
      ({ s with waiting_for_result := false },
       [Pending.showMultiplayerErrorResults 'A' (s.player_b_name ++ " " ++ errType)])
    else if c = 'A' then
      match pyIntL rest with
      | none => (s, [])
      | some d =>
        let s1 := { s with player_a_times := s.player_a_times ++ [d] }
        if s1.player_a_times.length = s1.player_b_times.length then
          process_multiplayer_round s1
        else
          (s1, [])
    else if c = 'B' then
      match pyIntL rest with
      | none => (s, [])
      | some d =>
        let s1 := { s with player_b_times := s.player_b_times ++ [d] }
        if s1.player_a_times.length = s1.player_b_times.length then
          process_multiplayer_round s1
        else
          (s1, [])
    else
      (s, [])

/-- `handle_serial_line` (lines 1031-1038): strip, then dispatch on the
game mode. -/
def handle_serial_line (s : GameState) (line : List Char) :
    GameState × List Pending :=
  let t := pyStripL line
  match s.game_mode with
  | .single => handle_single_player_response s t
  | .multiplayer => handle_multiplayer_response s t

/-- `show_multiplayer_error_results` (lines 637-699): declare the given
player the winner; the leaderboard is deliberately not updated for games
that end in error.  Returns the new state and the declared winner's
name. -/
def show_multiplayer_error_results (s : GameState) (winner_player : Char) :
    GameState × String :=
  let winner := if winner_player = 'A' then s.player_a_name else s.player_b_name
  ({ s with btn_cmd := .backToMenu, btn_enabled := true }, winner)

/-- Outcome reported by `show_final_multiplayer_results`. -/
structure FinalOutcome where
  winner : String
  winnerAvg : ℚ
  isTie : Bool
deriving DecidableEq

/-- `show_final_multiplayer_results` (lines 577-635): lower mean wins; an
exact tie stores a combined-name entry with the tied average.  The
winner (or combined name) is upserted into the leaderboard. -/
def show_final_multiplayer_results (s : GameState) : GameState × FinalOutcome :=
  let avg_a := mean s.player_a_times
  let avg_b := mean s.player_b_times
  if avg_a < avg_b then
    ({ s with
        btn_cmd := .backToMenu, btn_enabled := true,
        leaderboard := update_leaderboard_entry s.leaderboard s.selected_rounds
          s.player_a_name avg_a },
     ⟨s.player_a_name, avg_a, false⟩)
  else if avg_b < avg_a then
    ({ s with
        btn_cmd := .backToMenu, btn_enabled := true,
        leaderboard := update_leaderboard_entry s.leaderboard s.selected_rounds
          s.player_b_name avg_b },
     ⟨s.player_b_name, avg_b, false⟩)
  else
    let w := s.player_a_name ++ " & " ++ s.player_b_name
    ({ s with
        btn_cmd := .backToMenu, btn_enabled := true,
        leaderboard := update_leaderboard_entry s.leaderboard s.selected_rounds
          w avg_a },
     ⟨w, avg_a, true⟩)

/-- `send_round_command` (lines 701-722): build `S<color><digit>\n` or
`M<color><digit>\n`; a `serial.SerialException` during the write
(modelled by `writeOk = false`) re-enables the button and returns before
`waiting_for_result` is set; on success `waiting_for_result` becomes
true.  Returns the bytes written, if any. -/
def send_round_command (s : GameState) (color : Char) (number : Nat)
    (writeOk : Bool) : GameState × Option String :=
  let cmd :=
    (match s.game_mode with
      | .single => "S"
      | .multiplayer => "M")
      ++ String.singleton color ++ toString number ++ "\n"
  if writeOk then
    ({ s with waiting_for_result := true }, some cmd)
  else
    ({ s with btn_enabled := true }, none)

/-- `on_start_round_clicked` (lines 956-975): guards on an open link, on
`waiting_for_result` and on the round budget, then disables the button
and schedules the delayed `send_round_command`. -/
def on_start_round_clicked (s : GameState) (linkOpen : Bool) :
    GameState × List Pending :=
  if linkOpen = false then (s, [])
  else if s.waiting_for_result then (s, [])
  else if s.selected_rounds ≤ s.current_round then
    ({ s with btn_enabled := false }, [])
  else
    ({ s with btn_enabled := false }, [Pending.sendRoundCommand])

/-- Outcome of `on_start_game_clicked`. -/
inductive StartOutcome
  | emptyName
  | badRounds
  | linkDown
  | started
deriving DecidableEq

/-- `on_start_game_clicked` (lines 866-940).  Note the source assigns the
player name field(s) from the entry widgets *before* validating the round
count and the link. -/
def on_start_game_clicked (s : GameState) (nameEntry aEntry bEntry : String)
    (rounds : Nat) (linkOpen : Bool) : GameState × StartOutcome :=
  match s.game_mode with
  | .single =>
    let name := pyStrip nameEntry
    if name = "" then (s, .emptyName)
    else
      let s1 := { s with player_name := name }
      if rounds = 1 ∨ rounds = 5 ∨ rounds = 10 then
        if linkOpen then
          ({ s1 with selected_rounds := rounds, current_round := 0,
                     round_times := [], player_a_times := [],
                     player_b_times := [], waiting_for_result := false,
                     btn_cmd := .startRound, btn_enabled := true }, .started)
        else (s1, .linkDown)
      else (s1, .badRounds)
  | .multiplayer =>
    let pa := pyStrip aEntry
    let pb := pyStrip bEntry
    if pa = "" ∨ pb = "" then (s, .emptyName)
    else
      let s1 := { s with player_a_name := pa, player_b_name := pb }
      if rounds = 1 ∨ rounds = 5 ∨ rounds = 10 then
        if linkOpen then
          ({ s1 with selected_rounds := rounds, current_round := 0,
                     round_times := [], player_a_times := [],
                     player_b_times := [], waiting_for_result := false,
                     btn_cmd := .startRound, btn_enabled := true }, .started)
        else (s1, .linkDown)
      else (s1, .badRounds)

/-! ## Leaderboard persistence (`load_leaderboard`, SP_user.py lines
108-122), over a model of Python JSON values -/

/-- JSON values as produced by Python's `json.load`. -/
inductive Json
  | null
  | bool (b : Bool)
  | num (q : ℚ)
  | str (s : String)
  | arr (elems : List Json)
  | obj (fields : List (String × Json))

/-- Python exceptions that the modelled fragment can raise. -/
inductive PyExc
  | typeError
  | keyError
deriving DecidableEq

/-- Whether `pat` occurs as a contiguous run at the head of `l`. -/
def beginsWith : List Char → List Char → Bool
  | [], _ => true
  | _ :: _, [] => false
  | a :: as, b :: bs => a = b && beginsWith as bs

/-- Whether `pat` occurs as a contiguous run anywhere in `l` (Python's
substring test `pat in s`). -/
def containsRun (pat : List Char) : List Char → Bool
  | [] => pat.isEmpty
  | c :: rest => beginsWith pat (c :: rest) || containsRun pat rest

/-- Python `==` between a string and a JSON value, as used by list
membership: true exactly for the equal string (cross-type `==` is
`False` in Python, never an error). -/
def jsonEqStr (key : String) : Json → Bool
  | .str s => s = key
  | _ => false

/-- Python `key in data`: membership test on a dict's keys, substring
test on a string, element-equality test on a list; `TypeError` on
non-iterable values (numbers, booleans, `None`). -/
def pyContains (j : Json) (key : String) : Except PyExc Bool :=
  match j with
  | .obj fields => .ok (fields.any (fun kv => kv.fst = key))
  | .str s => .ok (containsRun key.data s.data)
  | .arr elems => .ok (elems.any (jsonEqStr key))
  | _ => .error .typeError

/-- Python `data[key]` with a string key: dict lookup (`KeyError` when
absent), `TypeError` on anything else. -/
def pyIndex (j : Json) (key : String) : Except PyExc Json :=
  match j with
  | .obj fields =>
    match fields.find? (fun kv => kv.fst = key) with
    | some kv => .ok kv.snd
    | none => .error .keyError
  | _ => .error .typeError

/-- Python iteration `for x in j`: the elements of a list, the single
characters of a string, the keys of a dict; `TypeError` otherwise. -/
def pyIter (j : Json) : Except PyExc (List Json) :=
  match j with
  | .arr elems => .ok elems
  | .str s => .ok (s.data.map (fun c => .str (String.singleton c)))
  | .obj fields => .ok (fields.map (fun kv => .str kv.fst))
  | _ => .error .typeError

/-- Python `tuple(entry)`: the iterated elements as a tuple. -/
def pyTuple (j : Json) : Except PyExc (List Json) :=
  pyIter j

/-- The in-memory leaderboard exactly as Python holds it after loading:
untyped tuples per round count (a well-formed file yields
`(name, number)` pairs, but nothing enforces that shape). -/
structure RawLeaderboard where
  rl1 : List (List Json)
  rl5 : List (List Json)
  rl10 : List (List Json)

def emptyRawLeaderboard : RawLeaderboard := ⟨[], [], []⟩

def setRawKey (lb : RawLeaderboard) (rounds : Nat) (entries : List (List Json)) :
    RawLeaderboard :=
  match rounds with
  | 1 => { lb with rl1 := entries }
  | 5 => { lb with rl5 := entries }
  | 10 => { lb with rl10 := entries }
  | _ => lb

/-- One iteration of the `for rounds in [1, 5, 10]` loop of
`load_leaderboard`: `if str(rounds) in data: self.leaderboard[rounds] =
[tuple(entry) for entry in data[str(rounds)]]`. -/
def loadRoundsKey (data : Json) (lb : RawLeaderboard) (rounds : Nat) :
    Except PyExc RawLeaderboard := do
  let present ← pyContains data (toString rounds)
  if present then
    let v ← pyIndex data (toString rounds)
    let items ← pyIter v
    let entries ← items.mapM pyTuple
    pure (setRawKey lb rounds entries)
  else
    pure lb

/-- What the backing file yielded: absent, unreadable (an `IOError` or a
`json.JSONDecodeError`, both caught by the source's `except` clause), or
a successfully parsed JSON document. -/
inductive LoadInput
  | missing
  | unreadable
  | parsed (j : Json)

/-- `load_leaderboard` (lines 108-122).  A missing file leaves the
startup-empty leaderboard; `JSONDecodeError`/`IOError` are caught and
reset it to empty; any exception thrown by the conversion loop itself
(for instance a `TypeError` from `str(rounds) in data` when the document
is not a container) is NOT caught and propagates to the caller. -/
def load_leaderboard (inp : LoadInput) : Except PyExc RawLeaderboard :=
  match inp with
  | .missing => .ok emptyRawLeaderboard
  | .unreadable => .ok emptyRawLeaderboard
  | .parsed j => do
    let a ← loadRoundsKey j emptyRawLeaderboard 1
    let b ← loadRoundsKey j a 5
    let c ← loadRoundsKey j b 10
    pure c

/-! ## Helper lemmas -/

theorem bfind_append_not_mem {b : Nat} {pre : List Nat}
    (h : ∀ x ∈ pre, x ≠ b) (r : List Nat) :
    bfind b (pre ++ r) = (bfind b r).map (fun n => n + pre.length) := by
  induction pre with
  | nil =>
    simp only [List.nil_append, List.length_nil]
    cases bfind b r <;> simp
  | cons c cs ih =>
    have hc : ¬ c = b := h c (by simp)
    have hcs : ∀ x ∈ cs, x ≠ b := fun x hx => h x (by simp [hx])
    have hstep : bfind b (c :: (cs ++ r)) = (bfind b (cs ++ r)).map (fun n => n + 1) := by
      simp [bfind, hc]
    rw [List.cons_append, hstep, ih hcs]
    cases bfind b r with
    | none => rfl
    | some a =>
      simp only [Option.map_some', List.length_cons]
      have : a + cs.length + 1 = a + (cs.length + 1) := by omega
      rw [this]

theorem take_len_append (pre r : List Nat) : (pre ++ r).take pre.length = pre := by
  induction pre with
  | nil => simp
  | cons c cs ih =>
    simp only [List.cons_append, List.length_cons, List.take_succ_cons,
      List.cons.injEq, true_and]
    exact ih

theorem getD_len_append (pre r : List Nat) (d : Nat) :
    (pre ++ r).getD pre.length d = r.getD 0 d := by
  induction pre with
  | nil => simp
  | cons c cs ih =>
    simp only [List.cons_append, List.length_cons, List.getD_cons_succ]
    exact ih

theorem drop_len_succ_append (pre r : List Nat) :
    (pre ++ r).drop (pre.length + 1) = r.drop 1 := by
  induction pre with
  | nil => simp
  | cons c cs ih =>
    simp only [List.cons_append, List.length_cons, List.drop_succ_cons]
    exact ih

/-- Names of the entry list after an upsert: unchanged when the name was
present, the name appended when absent. -/
theorem upsert_entries_names (entries : List (String × ℚ)) (name : String) (avg : ℚ) :
    (upsert_entries entries name avg).map Prod.fst
      = if name ∈ entries.map Prod.fst then entries.map Prod.fst
        else entries.map Prod.fst ++ [name] := by
  induction entries with
  | nil => simp [upsert_entries]
  | cons e rest ih =>
    obtain ⟨n, t⟩ := e
    by_cases hn : n = name
    · subst hn
      by_cases hlt : avg < t <;> simp [upsert_entries, hlt]
    · have hn' : ¬ name = n := fun hx => hn hx.symm
      simp only [upsert_entries, if_neg hn, List.map_cons, List.mem_cons, hn',
        false_or, ih]
      by_cases hmem : name ∈ rest.map Prod.fst <;> simp [hmem]

theorem upsert_entries_absent (entries : List (String × ℚ)) (name : String)
    (avg : ℚ) (h : name ∉ entries.map Prod.fst) :
    upsert_entries entries name avg = entries ++ [(name, avg)] := by
  induction entries with
  | nil => simp [upsert_entries]
  | cons e rest ih =>
    obtain ⟨n, t⟩ := e
    simp only [List.map_cons, List.mem_cons] at h
    push_neg at h
    have hn : ¬ n = name := fun hx => h.1 hx.symm
    simp [upsert_entries, hn, ih h.2]

theorem upsert_entries_found (l1 : List (String × ℚ)) (old : ℚ)
    (l2 : List (String × ℚ)) (name : String) (avg : ℚ)
    (h : name ∉ l1.map Prod.fst) :
    upsert_entries (l1 ++ (name, old) :: l2) name avg
      = l1 ++ (name, if avg < old then avg else old) :: l2 := by
  induction l1 with
  | nil =>
    by_cases hlt : avg < old <;> simp [upsert_entries, hlt]
  | cons e rest ih =>
    obtain ⟨n, t⟩ := e
    simp only [List.map_cons, List.mem_cons] at h
    push_neg at h
    have hn : ¬ n = name := fun hx => h.1 hx.symm
    simp [upsert_entries, hn, ih h.2]

theorem upsert_entries_nodup (entries : List (String × ℚ)) (name : String)
    (avg : ℚ) (hnd : (entries.map Prod.fst).Nodup) :
    ((upsert_entries entries name avg).map Prod.fst).Nodup := by
  rw [upsert_entries_names]
  by_cases hmem : name ∈ entries.map Prod.fst
  · simpa [hmem] using hnd
  · simp only [hmem, if_neg, ite_false]
    rw [List.nodup_append]
    refine ⟨hnd, List.nodup_singleton name, ?_⟩
    intro x hx
    simp only [List.mem_singleton]
    intro hxname
    exact hmem (hxname ▸ hx)

/-- Reading back the updated key of the leaderboard map. -/
theorem entriesFor_update (lb : Leaderboard) (r : Nat)
    (hr : r = 1 ∨ r = 5 ∨ r = 10) (name : String) (avg : ℚ) :
    (update_leaderboard_entry lb r name avg).entriesFor r
      = upsert_entries (lb.entriesFor r) name avg := by
  rcases hr with rfl | rfl | rfl <;> rfl

/-! ## Concrete states for examples and witnesses -/

def emptyLb : Leaderboard := ⟨[], [], []⟩

/-- A single-player session between rounds (not awaiting a result). -/
def idleSingle : GameState :=
  { game_mode := .single, player_name := "Sam", player_a_name := "",
    player_b_name := "", selected_rounds := 5, current_round := 1,
    round_times := [250], player_a_times := [], player_b_times := [],
    waiting_for_result := false, btn_cmd := .startRound, btn_enabled := true,
    leaderboard := emptyLb }

/-- A multiplayer session with a round in flight. -/
def mpWaiting : GameState :=
  { game_mode := .multiplayer, player_name := "", player_a_name := "Ann",
    player_b_name := "Ben", selected_rounds := 5, current_round := 0,
    round_times := [], player_a_times := [], player_b_times := [],
    waiting_for_result := true, btn_cmd := .startRound, btn_enabled := false,
    leaderboard := emptyLb }

/-- A one-round multiplayer session with the round in flight. -/
def mpOneRound : GameState := { mpWaiting with selected_rounds := 1 }

/-- A completed one-round multiplayer session where both players recorded
the same time. -/
def mpTied : GameState :=
  { mpWaiting with selected_rounds := 1, current_round := 1,
                   player_a_times := [100], player_b_times := [100],
                   waiting_for_result := false }

/-! ## Claim C2 -/

/-- C2: for every byte sequence fed to the framer in arbitrary chunk
splits, the framer extracts the prefix before the earliest `\n`/`\r`
(consuming exactly that delimiter byte), else the first 3 bytes when no
delimiter is present and at least 3 bytes are buffered, else waits; and
the concatenation of all extracted messages, plus one delimiter byte per
terminator-framed message, plus the residual buffer, reconstructs the
original byte sequence. -/
theorem c2_framer_reconstruction (chunks : List (List Nat)) :
    framedConcat (serial_reader_run chunks).fst ++ (serial_reader_run chunks).snd
      = chunks.flatten := by
  unfold serial_reader_run
  simpa [framedConcat] using serial_reader_run_aux chunks [] []

/-! ## Claim C4 -/

/-- C4: `update_leaderboard_entry` replaces an existing same-name entry
only when the new average is strictly lower, leaves it unchanged
otherwise, appends when the name is absent, never creates a duplicate
name, and behaves as specified on the Alice example. -/
theorem c4_upsert_spec (entries : List (String × ℚ)) (name : String) (avg : ℚ)
    (hnd : (entries.map Prod.fst).Nodup) :
    ((upsert_entries entries name avg).map Prod.fst).Nodup
  ∧ (name ∉ entries.map Prod.fst →
      upsert_entries entries name avg = entries ++ [(name, avg)])
  ∧ (∀ l1 : List (String × ℚ), ∀ old : ℚ, ∀ l2 : List (String × ℚ),
      entries = l1 ++ (name, old) :: l2 → name ∉ l1.map Prod.fst →
      upsert_entries entries name avg
        = l1 ++ (name, if avg < old then avg else old) :: l2)
  ∧ (upsert_entries [] "Alice" 210 = [("Alice", (210 : ℚ))]
    ∧ upsert_entries [("Alice", (210 : ℚ))] "Alice" 250 = [("Alice", (210 : ℚ))]
    ∧ upsert_entries [("Alice", (210 : ℚ))] "Alice" 190 = [("Alice", (190 : ℚ))]) := by
  refine ⟨upsert_entries_nodup entries name avg hnd,
    fun h => upsert_entries_absent entries name avg h,
    fun l1 old l2 he h1 => ?_,
    by decide, by decide, by decide⟩
  subst he
  exact upsert_entries_found l1 old l2 name avg h1

/-- Witness for C4 at a concrete input. -/
theorem c4_upsert_spec_witness :
    (([("Bob", (100 : ℚ))]).map Prod.fst).Nodup
  ∧ ((upsert_entries [("Bob", (100 : ℚ))] "Alice" 50).map Prod.fst).Nodup
  ∧ upsert_entries [("Bob", (100 : ℚ))] "Alice" 50
      = [("Bob", (100 : ℚ)), ("Alice", 50)] := by
  have h := c4_upsert_spec [("Bob", (100 : ℚ))] "Alice" 50 (by decide)
  exact ⟨by decide, h.1, by simpa using h.2.1 (by decide)⟩

/-! ## Claim C8 -/

/-- C8: `load_leaderboard` yields the empty map for a missing file and
for a file the `except (json.JSONDecodeError, IOError)` clause covers,
but a file parsing to valid JSON of a non-container shape (for example
the document `5`) makes the conversion loop raise an uncaught
`TypeError` to the caller, contradicting the code's own
"If file is corrupted or can't be read, start fresh" comment. -/
theorem c8_load_leaderboard_raises :
    load_leaderboard .missing = .ok emptyRawLeaderboard
  ∧ load_leaderboard .unreadable = .ok emptyRawLeaderboard
  ∧ load_leaderboard (.parsed (Json.num 5)) = .error PyExc.typeError := by
  exact ⟨rfl, rfl, rfl⟩

/-! ## Claim C1 -/

/-- C1 (amended): while `waiting_for_result` is false, every message is a
no-op for the multiplayer handler, and every message other than `E0`/`E1`
is a no-op for the single-player handler; `E0`/`E1` however are processed
by the single-player handler before its awaiting guard and make the
session terminal, leaving timings, the round counter and
`waiting_for_result` unchanged. -/
theorem c1_onmessage_no_wait (s : GameState) (line : List Char)
    (hw : s.waiting_for_result = false) :
    handle_multiplayer_response s line = (s, [])
  ∧ (line ≠ ['E', '0'] → line ≠ ['E', '1'] →
      handle_single_player_response s line = (s, []))
  ∧ ((handle_single_player_response s ['E', '0']).fst.round_times = s.round_times
    ∧ (handle_single_player_response s ['E', '0']).fst.current_round = s.current_round
    ∧ (handle_single_player_response s ['E', '0']).fst.waiting_for_result = false
    ∧ sessionTerminal (handle_single_player_response s ['E', '0']).fst = true) := by
  refine ⟨?_, ?_, ?_⟩
  · cases line with
    | nil => rfl
    | cons c rest => simp [handle_multiplayer_response, hw]
  · intro h0 h1
    have hcond : ¬ (line = ['E', '0'] ∨ line = ['E', '1']) := by
      rintro (h | h)
      · exact h0 h
      · exact h1 h
    cases hp : pyIntL line with
    | none => simp [handle_single_player_response, hcond, hp]
    | some d => simp [handle_single_player_response, hcond, hp, hw]
  · simp [handle_single_player_response, sessionTerminal]

/-- Witness for C1 at concrete inputs. -/
theorem c1_onmessage_no_wait_witness :
    idleSingle.waiting_for_result = false
  ∧ handle_multiplayer_response idleSingle ['A', '1'] = (idleSingle, [])
  ∧ handle_single_player_response idleSingle ['1', '2', '3'] = (idleSingle, [])
  ∧ sessionTerminal (handle_single_player_response idleSingle ['E', '0']).fst = true := by
  have h := c1_onmessage_no_wait idleSingle ['1', '2', '3'] rfl
  have hm := (c1_onmessage_no_wait idleSingle ['A', '1'] rfl).1
  exact ⟨rfl, hm, h.2.1 (by decide) (by decide), h.2.2.2.2.2⟩

/-- Counterexample to C1 as stated: a single-player session that is not
awaiting a result and not terminal becomes terminal when a stray `E0`
arrives, so processing the message is not a no-op. -/
theorem c1_counterexample :
    idleSingle.waiting_for_result = false
  ∧ sessionTerminal idleSingle = false
  ∧ sessionTerminal (handle_single_player_response idleSingle ['E', '0']).fst = true := by
  exact ⟨rfl, rfl, rfl⟩

/-! ## Claim C3 -/

/-- Fields of the state after `process_multiplayer_round` fires while a
round is in flight. -/
theorem process_mp_round_fields (s : GameState)
    (hw : s.waiting_for_result = true) :
    (process_multiplayer_round s).fst.current_round = s.current_round + 1
  ∧ (process_multiplayer_round s).fst.waiting_for_result = false
  ∧ (process_multiplayer_round s).fst.player_a_times = s.player_a_times
  ∧ (process_multiplayer_round s).fst.player_b_times = s.player_b_times
  ∧ (process_multiplayer_round s).fst.round_times = s.round_times := by
  unfold process_multiplayer_round
  rw [hw]
  by_cases hfin : s.selected_rounds ≤ s.current_round + 1 <;>
    simp [hfin]

/-- C3: in multiplayer, a tagged timing completes the round (round
counter incremented, awaiting flag cleared) exactly when its append makes
the two timing lists equally long; `A100` then `A150` before any `B`
message leaves the round in flight with `timingsA` two ahead. -/
theorem c3_mp_round_completion (s : GameState) (t : List Char) (d : Int)
    (hw : s.waiting_for_result = true) (hp : pyIntL t = some d) :
    (((handle_multiplayer_response s ('A' :: t)).fst.current_round = s.current_round + 1
        ∧ (handle_multiplayer_response s ('A' :: t)).fst.waiting_for_result = false)
      ↔ s.player_a_times.length + 1 = s.player_b_times.length)
  ∧ (handle_multiplayer_response s ('A' :: t)).fst.player_a_times
      = s.player_a_times ++ [d]
  ∧ (handle_multiplayer_response s ('A' :: t)).fst.player_b_times = s.player_b_times
  ∧ (((handle_multiplayer_response s ('B' :: t)).fst.current_round = s.current_round + 1
        ∧ (handle_multiplayer_response s ('B' :: t)).fst.waiting_for_result = false)
      ↔ s.player_a_times.length = s.player_b_times.length + 1)
  ∧ (handle_multiplayer_response s ('B' :: t)).fst.player_b_times
      = s.player_b_times ++ [d]
  ∧ (handle_multiplayer_response s ('B' :: t)).fst.player_a_times = s.player_a_times
  ∧ ((handle_multiplayer_response
        (handle_multiplayer_response mpWaiting ['A', '1', '0', '0']).fst
        ['A', '1', '5', '0']).fst.player_a_times = [100, 150]
    ∧ (handle_multiplayer_response
        (handle_multiplayer_response mpWaiting ['A', '1', '0', '0']).fst
        ['A', '1', '5', '0']).fst.player_b_times = []
    ∧ (handle_multiplayer_response
        (handle_multiplayer_response mpWaiting ['A', '1', '0', '0']).fst
        ['A', '1', '5', '0']).fst.waiting_for_result = true
    ∧ (handle_multiplayer_response
        (handle_multiplayer_response mpWaiting ['A', '1', '0', '0']).fst
        ['A', '1', '5', '0']).fst.current_round = 0) := by
  have hne0 : t ≠ ['E', '0'] := by
    rintro rfl
    rw [show pyIntL ['E', '0'] = none from rfl] at hp
    cases hp
  have hne1 : t ≠ ['E', '1'] := by
    rintro rfl
    rw [show pyIntL ['E', '1'] = none from rfl] at hp
    cases hp
  have hstepA : handle_multiplayer_response s ('A' :: t)
      = (if s.player_a_times.length + 1 = s.player_b_times.length then
           process_multiplayer_round
             { s with player_a_times := s.player_a_times ++ [d] }
         else ({ s with player_a_times := s.player_a_times ++ [d] }, [])) := by
    simp [handle_multiplayer_response, hw, hne0, hne1, hp]
  have hstepB : handle_multiplayer_response s ('B' :: t)
      = (if s.player_a_times.length = s.player_b_times.length + 1 then
           process_multiplayer_round
             { s with player_b_times := s.player_b_times ++ [d] }
         else ({ s with player_b_times := s.player_b_times ++ [d] }, [])) := by
    simp [handle_multiplayer_response, hw, hne0, hne1, hp]
  have hprocA := process_mp_round_fields
    { s with player_a_times := s.player_a_times ++ [d] } hw
  have hprocB := process_mp_round_fields
    { s with player_b_times := s.player_b_times ++ [d] } hw
  refine ⟨?_, ?_, ?_, ?_, ?_, ?_, by decide, by decide, by decide, by decide⟩
  · by_cases hlen : s.player_a_times.length + 1 = s.player_b_times.length
    · rw [hstepA, if_pos hlen]
      simp [hprocA.1, hprocA.2.1, hlen]
    · rw [hstepA, if_neg hlen]
      simp [hlen]
  · by_cases hlen : s.player_a_times.length + 1 = s.player_b_times.length
    · rw [hstepA, if_pos hlen]
      exact hprocA.2.2.1
    · rw [hstepA, if_neg hlen]
  · by_cases hlen : s.player_a_times.length + 1 = s.player_b_times.length
    · rw [hstepA, if_pos hlen]
      exact hprocA.2.2.2.1
    · rw [hstepA, if_neg hlen]
  · by_cases hlen : s.player_a_times.length = s.player_b_times.length + 1
    · rw [hstepB, if_pos hlen]
      simp [hprocB.1, hprocB.2.1, hlen]
    · rw [hstepB, if_neg hlen]
      simp [hlen]
  · by_cases hlen : s.player_a_times.length = s.player_b_times.length + 1
    · rw [hstepB, if_pos hlen]
      exact hprocB.2.2.2.1
    · rw [hstepB, if_neg hlen]
  · by_cases hlen : s.player_a_times.length = s.player_b_times.length + 1
    · rw [hstepB, if_pos hlen]
      exact hprocB.2.2.1
    · rw [hstepB, if_neg hlen]

/-- Witness for C3 at a concrete input. -/
theorem c3_mp_round_completion_witness :
    mpWaiting.waiting_for_result = true
  ∧ pyIntL ['9', '9'] = some 99
  ∧ (handle_multiplayer_response mpWaiting ('A' :: ['9', '9'])).fst.player_a_times
      = mpWaiting.player_a_times ++ [99] := by
  have h := c3_mp_round_completion mpWaiting ['9', '9'] 99 rfl (by decide)
  exact ⟨rfl, by decide, h.2.1⟩

/-! ## Claim C5 -/

/-- C5: in multiplayer, while awaiting a result, each of the four
player-tagged error messages `AE0`/`AE1`/`BE0`/`BE1` immediately stops
the round and schedules the abort screen with the *other* player
declared the winner, without waiting for the opposing player's pending
timing; the abort screen maps winner `'A'` to `player_a_name` and
winner `'B'` to `player_b_name`, makes the session terminal and leaves
the leaderboard and timings untouched; concretely, `A110` then `BE0` in
a one-round session aborts with player A ("Ann") the winner while B has
no timing. -/
theorem c5_mp_error_winner (s : GameState) (hw : s.waiting_for_result = true) :
    handle_multiplayer_response s ['A', 'E', '0']
      = ({ s with waiting_for_result := false },
         [Pending.showMultiplayerErrorResults 'B'
            (s.player_a_name ++ " " ++ "pressed the button too early")])
  ∧ handle_multiplayer_response s ['A', 'E', '1']
      = ({ s with waiting_for_result := false },
         [Pending.showMultiplayerErrorResults 'B'
            (s.player_a_name ++ " " ++ "pressed the wrong color combination")])
  ∧ handle_multiplayer_response s ['B', 'E', '0']
      = ({ s with waiting_for_result := false },
         [Pending.showMultiplayerErrorResults 'A'
            (s.player_b_name ++ " " ++ "pressed the button too early")])
  ∧ handle_multiplayer_response s ['B', 'E', '1']
      = ({ s with waiting_for_result := false },
         [Pending.showMultiplayerErrorResults 'A'
            (s.player_b_name ++ " " ++ "pressed the wrong color combination")])
  ∧ (∀ s2 : GameState,
      (show_multiplayer_error_results s2 'A').snd = s2.player_a_name
      ∧ (show_multiplayer_error_results s2 'B').snd = s2.player_b_name
      ∧ sessionTerminal (show_multiplayer_error_results s2 'A').fst = true
      ∧ sessionTerminal (show_multiplayer_error_results s2 'B').fst = true
      ∧ (show_multiplayer_error_results s2 'A').fst.leaderboard = s2.leaderboard
      ∧ (show_multiplayer_error_results s2 'B').fst.leaderboard = s2.leaderboard
      ∧ (show_multiplayer_error_results s2 'A').fst.player_a_times = s2.player_a_times
      ∧ (show_multiplayer_error_results s2 'A').fst.player_b_times = s2.player_b_times
      ∧ (show_multiplayer_error_results s2 'B').fst.player_a_times = s2.player_a_times
      ∧ (show_multiplayer_error_results s2 'B').fst.player_b_times = s2.player_b_times)
  ∧ ((handle_multiplayer_response
        (handle_multiplayer_response mpOneRound ['A', '1', '1', '0']).fst
        ['B', 'E', '0']).snd
      = [Pending.showMultiplayerErrorResults 'A' "Ben pressed the button too early"]
    ∧ (handle_multiplayer_response
        (handle_multiplayer_response mpOneRound ['A', '1', '1', '0']).fst
        ['B', 'E', '0']).fst.waiting_for_result = false
    ∧ (handle_multiplayer_response
        (handle_multiplayer_response mpOneRound ['A', '1', '1', '0']).fst
        ['B', 'E', '0']).fst.player_a_times = [110]
    ∧ (handle_multiplayer_response
        (handle_multiplayer_response mpOneRound ['A', '1', '1', '0']).fst
        ['B', 'E', '0']).fst.player_b_times = []
    ∧ (show_multiplayer_error_results
        (handle_multiplayer_response
          (handle_multiplayer_response mpOneRound ['A', '1', '1', '0']).fst
          ['B', 'E', '0']).fst 'A').snd = "Ann"
    ∧ sessionTerminal (show_multiplayer_error_results
        (handle_multiplayer_response
          (handle_multiplayer_response mpOneRound ['A', '1', '1', '0']).fst
          ['B', 'E', '0']).fst 'A').fst = true
    ∧ (show_multiplayer_error_results
        (handle_multiplayer_response
          (handle_multiplayer_response mpOneRound ['A', '1', '1', '0']).fst
          ['B', 'E', '0']).fst 'A').fst.leaderboard = emptyLb) := by
  refine ⟨?_, ?_, ?_, ?_, ?_,
    by decide, by decide, by decide, by decide, by decide, by decide, by decide⟩
  · simp [handle_multiplayer_response, hw]
  · simp [handle_multiplayer_response, hw]
  · simp [handle_multiplayer_response, hw]
  · simp [handle_multiplayer_response, hw]
  · intro s2
    exact ⟨rfl, rfl, rfl, rfl, rfl, rfl, rfl, rfl, rfl, rfl⟩

/-- Witness for C5 at concrete inputs, covering an A-tagged and a
B-tagged error code. -/
theorem c5_mp_error_winner_witness :
    mpWaiting.waiting_for_result = true
  ∧ handle_multiplayer_response mpWaiting ['A', 'E', '1']
      = ({ mpWaiting with waiting_for_result := false },
         [Pending.showMultiplayerErrorResults 'B'
            "Ann pressed the wrong color combination"])
  ∧ handle_multiplayer_response mpWaiting ['B', 'E', '0']
      = ({ mpWaiting with waiting_for_result := false },
         [Pending.showMultiplayerErrorResults 'A'
            "Ben pressed the button too early"]) := by
  have h := c5_mp_error_winner mpWaiting rfl
  refine ⟨rfl, ?_, ?_⟩
  · rw [h.2.1]
    decide
  · rw [h.2.2.1]
    decide

/-! ## Claim C6 -/

/-- C6: a failed serial write during round-command transmission consumes
nothing: the round counter and every timing list are unchanged, nothing
was sent, `waiting_for_result` stays false, the button is re-enabled with
its command unchanged, and a further round request still goes through to
scheduling a round. -/
theorem c6_write_failure_no_consume (s : GameState) (color : Char) (number : Nat)
    (hw : s.waiting_for_result = false)
    (hr : s.current_round < s.selected_rounds) :
    (send_round_command s color number false).fst.current_round = s.current_round
  ∧ (send_round_command s color number false).fst.round_times = s.round_times
  ∧ (send_round_command s color number false).fst.player_a_times = s.player_a_times
  ∧ (send_round_command s color number false).fst.player_b_times = s.player_b_times
  ∧ (send_round_command s color number false).fst.waiting_for_result = false
  ∧ (send_round_command s color number false).snd = none
  ∧ (send_round_command s color number false).fst.btn_enabled = true
  ∧ (send_round_command s color number false).fst.btn_cmd = s.btn_cmd
  ∧ on_start_round_clicked (send_round_command s color number false).fst true
      = ({ (send_round_command s color number false).fst with btn_enabled := false },
         [Pending.sendRoundCommand]) := by
  refine ⟨rfl, rfl, rfl, rfl, hw, rfl, rfl, rfl, ?_⟩
  unfold on_start_round_clicked send_round_command
  simp [hw]
  omega

/-- Witness for C6 at a concrete input. -/
theorem c6_write_failure_no_consume_witness :
    idleSingle.waiting_for_result = false
  ∧ idleSingle.current_round < idleSingle.selected_rounds
  ∧ (send_round_command idleSingle 'R' 3 false).snd = none
  ∧ (send_round_command idleSingle 'R' 3 false).fst.current_round
      = idleSingle.current_round := by
  have h := c6_write_failure_no_consume idleSingle 'R' 3 rfl (by decide)
  exact ⟨rfl, by decide, h.2.2.2.2.2.1, h.1⟩

/-! ## Claim C7 -/

/-- C7 (amended): starting a session with a round count outside
`{1, 5, 10}` and nonempty entered names fails with the bad-rounds
validation outcome and starts nothing — round counter, timings, selected
rounds, awaiting flag and button are untouched — but the player name
field(s) are overwritten from the entry widgets before the validation
runs. -/
theorem c7_bad_rounds_amended (s : GameState) (ne ae be : String)
    (rounds : Nat) (lk : Bool)
    (hr1 : rounds ≠ 1) (hr5 : rounds ≠ 5) (hr10 : rounds ≠ 10)
    (hn : s.game_mode = .single → pyStrip ne ≠ "")
    (hm : s.game_mode = .multiplayer → pyStrip ae ≠ "" ∧ pyStrip be ≠ "") :
    (on_start_game_clicked s ne ae be rounds lk).snd = StartOutcome.badRounds
  ∧ (on_start_game_clicked s ne ae be rounds lk).fst.current_round = s.current_round
  ∧ (on_start_game_clicked s ne ae be rounds lk).fst.round_times = s.round_times
  ∧ (on_start_game_clicked s ne ae be rounds lk).fst.player_a_times = s.player_a_times
  ∧ (on_start_game_clicked s ne ae be rounds lk).fst.player_b_times = s.player_b_times
  ∧ (on_start_game_clicked s ne ae be rounds lk).fst.selected_rounds = s.selected_rounds
  ∧ (on_start_game_clicked s ne ae be rounds lk).fst.waiting_for_result
      = s.waiting_for_result
  ∧ (on_start_game_clicked s ne ae be rounds lk).fst.btn_cmd = s.btn_cmd
  ∧ (s.game_mode = .single →
      (on_start_game_clicked s ne ae be rounds lk).fst.player_name = pyStrip ne)
  ∧ (s.game_mode = .multiplayer →
      (on_start_game_clicked s ne ae be rounds lk).fst.player_a_name = pyStrip ae
      ∧ (on_start_game_clicked s ne ae be rounds lk).fst.player_b_name = pyStrip be) := by
  have hrounds : ¬ (rounds = 1 ∨ rounds = 5 ∨ rounds = 10) := by
    rintro (h | h | h)
    · exact hr1 h
    · exact hr5 h
    · exact hr10 h
  cases hmode : s.game_mode with
  | single =>
    have hne := hn hmode
    simp [on_start_game_clicked, hmode, hne, hrounds]
  | multiplayer =>
    have hab := hm hmode
    simp [on_start_game_clicked, hmode, hab.1, hab.2, hrounds]

/-- Witness for C7's amended statement at a concrete input. -/
theorem c7_bad_rounds_amended_witness :
    idleSingle.game_mode = Mode.single
  ∧ pyStrip "Alice" ≠ ""
  ∧ (on_start_game_clicked idleSingle "Alice" "" "" 7 true).snd
      = StartOutcome.badRounds
  ∧ (on_start_game_clicked idleSingle "Alice" "" "" 7 true).fst.player_name
      = pyStrip "Alice" := by
  have h := c7_bad_rounds_amended idleSingle "Alice" "" "" 7 true
    (by decide) (by decide) (by decide)
    (fun hx => by decide) (fun hx => by cases hx)
  refine ⟨rfl, by decide, h.1, h.2.2.2.2.2.2.2.2.1 rfl⟩

/-- Counterexample to C7 as stated: with round count 7 the start fails
with the bad-rounds validation outcome, yet the session's stored player
name has been overwritten by the entry content, so a session field did
change. -/
theorem c7_counterexample :
    (on_start_game_clicked idleSingle "Alice" "" "" 7 true).snd
      = StartOutcome.badRounds
  ∧ idleSingle.player_name = "Sam"
  ∧ (on_start_game_clicked idleSingle "Alice" "" "" 7 true).fst.player_name
      = "Alice" := by
  exact ⟨rfl, rfl, rfl⟩

/-! ## Claim C9 -/

/-- C9: when a multiplayer session finishes with both players' arithmetic
means exactly equal, the outcome is reported as a tie and the leaderboard
receives a single combined-name entry `<nameA> & <nameB>` carrying the
tied average. -/
theorem c9_tie_combined_entry (s : GameState)
    (_ha : s.player_a_times ≠ []) (_hb : s.player_b_times ≠ [])
    (hr : s.selected_rounds = 1 ∨ s.selected_rounds = 5 ∨ s.selected_rounds = 10)
    (heq : mean s.player_a_times = mean s.player_b_times) :
    (show_final_multiplayer_results s).snd.isTie = true
  ∧ (show_final_multiplayer_results s).snd.winner
      = s.player_a_name ++ " & " ++ s.player_b_name
  ∧ (show_final_multiplayer_results s).snd.winnerAvg = mean s.player_a_times
  ∧ (show_final_multiplayer_results s).fst.leaderboard.entriesFor s.selected_rounds
      = upsert_entries (s.leaderboard.entriesFor s.selected_rounds)
          (s.player_a_name ++ " & " ++ s.player_b_name) (mean s.player_a_times)
  ∧ sessionTerminal (show_final_multiplayer_results s).fst = true := by
  have hnlt1 : ¬ mean s.player_a_times < mean s.player_b_times := by
    rw [heq]
    exact lt_irrefl _
  have hnlt2 : ¬ mean s.player_b_times < mean s.player_a_times := by
    rw [heq]
    exact lt_irrefl _
  simp only [show_final_multiplayer_results]
  rw [if_neg hnlt1, if_neg hnlt2]
  refine ⟨rfl, rfl, rfl, ?_, rfl⟩
  exact entriesFor_update s.leaderboard s.selected_rounds hr _ _

/-- Witness for C9 at a concrete tied session. -/
theorem c9_tie_combined_entry_witness :
    mean mpTied.player_a_times = mean mpTied.player_b_times
  ∧ (show_final_multiplayer_results mpTied).snd.isTie = true
  ∧ (show_final_multiplayer_results mpTied).snd.winner = "Ann & Ben"
  ∧ (show_final_multiplayer_results mpTied).fst.leaderboard.entriesFor
      mpTied.selected_rounds = [("Ann & Ben", (100 : ℚ))] := by
  have h := c9_tie_combined_entry mpTied (by decide) (by decide) (Or.inl rfl) rfl
  refine ⟨rfl, h.1, ?_, ?_⟩
  · rw [h.2.1]
    decide
  · rw [h.2.2.2.1]
    have hmean : mean mpTied.player_a_times = 100 := by
      norm_num [mean, mpTied, mpWaiting]
    rw [hmean]
    rfl

/-! ## Claim C10 -/

/-- C10: a `\r\n` pair in the stream yields two framed messages — the
delimiter-free content before the `\r`, then the empty message between
`\r` and `\n` — and an empty (or whitespace-only) message is a no-op for
`handle_serial_line` in both modes. -/
theorem c10_crlf_empty_message (pre rest : List Nat)
    (hpre : ∀ x ∈ pre, x ≠ 10 ∧ x ≠ 13) :
    serial_reader_step (pre ++ 13 :: 10 :: rest)
      = some (.line pre 13, 10 :: rest)
  ∧ serial_reader_step (10 :: rest) = some (.line [] 10, rest)
  ∧ pyDecode [] = []
  ∧ (∀ s : GameState, ∀ line : List Char, pyStripL line = [] →
      handle_serial_line s line = (s, [])) := by
  have h10 : ∀ x ∈ pre, x ≠ 10 := fun x hx => (hpre x hx).1
  have h13 : ∀ x ∈ pre, x ≠ 13 := fun x hx => (hpre x hx).2
  have hb10 : bfind 10 (pre ++ 13 :: 10 :: rest) = some (1 + pre.length) := by
    have hinner : bfind 10 (13 :: 10 :: rest) = some 1 := by simp [bfind]
    rw [bfind_append_not_mem h10, hinner]
    rfl
  have hb13 : bfind 13 (pre ++ 13 :: 10 :: rest) = some pre.length := by
    have hinner : bfind 13 (13 :: 10 :: rest) = some 0 := by simp [bfind]
    rw [bfind_append_not_mem h13, hinner]
    simp
  have hsep : sep_position (pre ++ 13 :: 10 :: rest) = some pre.length := by
    unfold sep_position
    rw [hb10, hb13]
    simp only [Option.some.injEq]
    omega
  refine ⟨?_, ?_, rfl, ?_⟩
  · unfold serial_reader_step
    rw [hsep]
    dsimp only
    rw [take_len_append, getD_len_append, drop_len_succ_append]
    rfl
  · have hsep2 : sep_position (10 :: rest) = some 0 := by
      unfold sep_position
      have h0 : bfind 10 (10 :: rest) = some 0 := by simp [bfind]
      rw [h0]
      cases h13r : bfind 13 (10 :: rest) with
      | none => rfl
      | some c => simp
    unfold serial_reader_step
    rw [hsep2]
    rfl
  · intro s2 line hstrip
    simp only [handle_serial_line, hstrip]
    cases hm : s2.game_mode with
    | single =>
      simp [handle_single_player_response, pyIntL, digitsVal]
    | multiplayer =>
      rfl

/-- Witness for C10 at concrete inputs. -/
theorem c10_crlf_empty_message_witness :
    serial_reader_step ([65, 66] ++ 13 :: 10 :: [67])
      = some (.line [65, 66] 13, 10 :: [67])
  ∧ serial_reader_step (10 :: [67]) = some (.line [] 10, [67])
  ∧ handle_serial_line mpWaiting [' '] = (mpWaiting, []) := by
  have h := c10_crlf_empty_message [65, 66] [67] (by decide)
  exact ⟨h.1, h.2.1, h.2.2.2 mpWaiting [' '] (by decide)⟩
